import Mathlib

/-!
Verification of the dungeon BFS solver (src/solver.cpp).

The grid is modelled as a list of rows, each row a list of characters
(the C++ `vector<string>`).  Coordinates are integers, matching the C++
`int` fields of `Cell`, with the sentinel `(-1, -1)` for "not found".
The two BFS engines are modelled with explicit queues, visited lists and
parent association lists; the loops take a fuel argument large enough to
cover every possible dequeue (at most one per insertable state).
-/

namespace Solver

/-- The `Cell` struct from cell.h: a (row, column) pair of ints. -/
structure Cell where
  r : Int
  c : Int
deriving DecidableEq, Repr

instance : BEq Cell := ⟨fun a b => a.r == b.r && a.c == b.c⟩

abbrev Grid := List (List Char)

/-- Number of rows, `dungeon.size()`. -/
def numRows (dungeon : Grid) : Int := dungeon.length

/-- Width of row 0, `dungeon[0].size()`; the column bound used by both
bounds checks.  `headD` is safe because the C++ code only evaluates
`dungeon[0]` after `0 <= row < dungeon.size()` holds. -/
def numCols (dungeon : Grid) : Int := (dungeon.headD []).length

/-- `dungeon[row][col]`.  Only ever consulted after the bounds checks
succeed, so the defaults are unreachable on rectangular grids. -/
def charAt (dungeon : Grid) (row col : Int) : Char :=
  (dungeon.getD row.toNat []).getD col.toNat '#'

/-- Scan one row left to right for the first occurrence of `target`. -/
def findInRow : List Char → Char → Option Nat
  | [], _ => none
  | ch :: rest, target =>
    if ch = target then some 0 else (findInRow rest target).map (· + 1)

def findPositionAux : Grid → Char → Int → Cell
  | [], _, _ => ⟨-1, -1⟩
  | rowChars :: rest, target, row =>
    match findInRow rowChars target with
    | some col => ⟨row, (col : Int)⟩
    | none => findPositionAux rest target (row + 1)

/-- `findPosition`: row-major scan for `target`, sentinel `(-1,-1)` when
absent. -/
def findPosition (dungeon : Grid) (target : Char) : Cell :=
  findPositionAux dungeon target 0

/-- `isPassable`: in bounds, not a wall, and not a door letter; the exit
letter `E` is explicitly excluded from the door check. -/
def isPassable (dungeon : Grid) (row col : Int) : Bool :=
  if row < 0 || row ≥ numRows dungeon || col < 0 || col ≥ numCols dungeon then
    false
  else
    let cell := charAt dungeon row col
    if cell = '#' then false
    else if 'A'.toNat ≤ cell.toNat && cell.toNat ≤ 'F'.toNat && cell ≠ 'E' then false
    else true

/-- `canPassDoor`: non-doors pass unconditionally; a door `A`..`F` needs
the bit of the matching lowercase key in `keyMask`. -/
def canPassDoor (door : Char) (keyMask : Nat) : Bool :=
  if door.toNat < 'A'.toNat || 'F'.toNat < door.toNat then true
  else
    let requiredKey := door.toNat - 'A'.toNat + 'a'.toNat
    let keyBit := requiredKey - 'a'.toNat
    (keyMask >>> keyBit) &&& 1 == 1

/-- `collectKey`: set the bit of a key letter `a`..`f`, otherwise return
the mask unchanged. -/
def collectKey (key : Char) (keyMask : Nat) : Nat :=
  if key.toNat < 'a'.toNat || 'f'.toNat < key.toNat then keyMask
  else keyMask ||| (1 <<< (key.toNat - 'a'.toNat))

/-- `isValidPosition`: in bounds and not a wall (doors handled
separately by the key-aware engine). -/
def isValidPosition (dungeon : Grid) (row col : Int) : Bool :=
  if row < 0 || row ≥ numRows dungeon || col < 0 || col ≥ numCols dungeon then
    false
  else
    charAt dungeon row col ≠ '#'

/-- Modelled from the spec: the movement offset table `DIRECTIONS` /
`NUM_DIRECTIONS` lives in a header that is not part of the sources; §9 of
the spec fixes it as the four unit offsets in one constant order.  Chosen
order: up, down, left, right. -/
def DIRECTIONS : List (Int × Int) := [(-1, 0), (1, 0), (0, -1), (0, 1)]

/-- `getNeighbors`: the 4-connected neighbours that pass `isPassable`. -/
def getNeighbors (dungeon : Grid) (current : Cell) : List Cell :=
  DIRECTIONS.filterMap fun dir =>
    let newRow := current.r + dir.1
    let newCol := current.c + dir.2
    if isPassable dungeon newRow newCol then some ⟨newRow, newCol⟩ else none

abbrev ParentMap := List (Cell × Cell)

/-- `reconstructPath`'s backward walk: follow parent pointers until the
start cell, prepending cells so the result comes out start-first (the C++
code appends and reverses).  Fuel bounds the walk; the map has no
duplicate keys so `parents.length + 1` steps always suffice. -/
def reconstructPathAux (parents : ParentMap) (start : Cell) :
    Nat → Cell → List Cell → List Cell
  | 0, _, _ => []
  | fuel + 1, current, acc =>
    if current.r = start.r && current.c = start.c then current :: acc
    else
      match parents.lookup current with
      | none => []
      | some p => reconstructPathAux parents start fuel p (current :: acc)

def reconstructPath (parents : ParentMap) (start goal : Cell) : List Cell :=
  reconstructPathAux parents start (parents.length + 1) goal []

/-- The neighbour-processing body of `bfsPath`'s main loop: each
passable, unvisited neighbour is enqueued, marked visited and recorded in
the parent map. -/
def bfsStep (dungeon : Grid) (current : Cell)
    (st : List Cell × List Cell × ParentMap) :
    List Cell × List Cell × ParentMap :=
  (getNeighbors dungeon current).foldl
    (fun st neighbor =>
      let (q, v, p) := st
      if isPassable dungeon neighbor.r neighbor.c && !(v.contains neighbor) then
        (q ++ [neighbor], neighbor :: v, (neighbor, current) :: p)
      else (q, v, p))
    st

/-- The main loop of `bfsPath`: dequeue, test for the located exit,
otherwise expand neighbours. -/
def bfsLoop (dungeon : Grid) (start exitCell : Cell) :
    Nat → List Cell → List Cell → ParentMap → List Cell
  | 0, _, _, _ => []
  | fuel + 1, q, v, p =>
    match q with
    | [] => []
    | current :: rest =>
      if current = exitCell then reconstructPath p start current
      else
        let (q', v', p') := bfsStep dungeon current (rest, v, p)
        bfsLoop dungeon start exitCell fuel q' v' p'

/-- Fuel for the plain BFS: at most one dequeue per cell of the grid. -/
def bfsFuel (dungeon : Grid) : Nat :=
  dungeon.length * (dungeon.headD []).length + 1

/-- `bfsPath` (solvePlain): locate `S` and `E`, bail out on the sentinel,
then run the plain BFS. -/
def bfsPath (dungeon : Grid) : List Cell :=
  let start := findPosition dungeon 'S'
  let exitCell := findPosition dungeon 'E'
  if start.r = -1 || exitCell.r = -1 then []
  else bfsLoop dungeon start exitCell (bfsFuel dungeon) [start] [start] []

/-- The `KeyState` struct: position plus the bitmask of collected keys. -/
structure KeyState where
  row : Int
  col : Int
  keyMask : Nat
deriving DecidableEq, Repr

instance : BEq KeyState :=
  ⟨fun a b => a.row == b.row && a.col == b.col && a.keyMask == b.keyMask⟩

/-- The door guard of `bfsPathKeys`'s edge check:
`cellChar >= 'A' && cellChar <= 'F' && cellChar != 'S' && cellChar != 'E'`. -/
def doorGuard (cellChar : Char) : Bool :=
  'A'.toNat ≤ cellChar.toNat && cellChar.toNat ≤ 'F'.toNat &&
    cellChar ≠ 'S' && cellChar ≠ 'E'

/-- The key guard of `bfsPathKeys`'s edge check:
`cellChar >= 'a' && cellChar <= 'f'`. -/
def keyGuard (cellChar : Char) : Bool :=
  'a'.toNat ≤ cellChar.toNat && cellChar.toNat ≤ 'f'.toNat

/-- One direction of `bfsPathKeys`'s neighbour loop, up to the visited
check: bounds/wall test, door test against the current mask, then the
key-collection update.  `none` models the two `continue`s. -/
def keyNeighborState (dungeon : Grid) (current : KeyState)
    (dir : Int × Int) : Option KeyState :=
  let newRow := current.row + dir.1
  let newCol := current.col + dir.2
  if !isValidPosition dungeon newRow newCol then none
  else
    let cellChar := charAt dungeon newRow newCol
    if doorGuard cellChar && !canPassDoor cellChar current.keyMask then none
    else
      let newKeyMask :=
        if keyGuard cellChar then collectKey cellChar current.keyMask
        else current.keyMask
      some ⟨newRow, newCol, newKeyMask⟩

/-- All successor states generated from a dequeued state, in direction
order (before the visited check). -/
def keySuccessors (dungeon : Grid) (current : KeyState) : List KeyState :=
  DIRECTIONS.filterMap (keyNeighborState dungeon current)

abbrev KeyParentMap := List (KeyState × KeyState)

/-- The neighbour-processing body of `bfsPathKeys`'s main loop: every
unvisited successor state is enqueued, marked visited and recorded. -/
def keyBfsStep (dungeon : Grid) (current : KeyState)
    (st : List KeyState × List KeyState × KeyParentMap) :
    List KeyState × List KeyState × KeyParentMap :=
  (keySuccessors dungeon current).foldl
    (fun st newState =>
      let (q, v, p) := st
      if v.contains newState then (q, v, p)
      else (q ++ [newState], newState :: v, (newState, current) :: p))
    st

/-- `reconstructKeyPath`'s backward walk: like `reconstructPathAux` but
over `KeyState` (all three fields compared) and recording coordinates
only. -/
def reconstructKeyPathAux (parents : KeyParentMap) (start : KeyState) :
    Nat → KeyState → List Cell → List Cell
  | 0, _, _ => []
  | fuel + 1, current, acc =>
    if current.row = start.row && current.col = start.col &&
        current.keyMask = start.keyMask then
      (⟨current.row, current.col⟩ : Cell) :: acc
    else
      match parents.lookup current with
      | none => []
      | some p =>
        reconstructKeyPathAux parents start fuel p
          ((⟨current.row, current.col⟩ : Cell) :: acc)

def reconstructKeyPath (parents : KeyParentMap) (start goal : KeyState) :
    List Cell :=
  reconstructKeyPathAux parents start (parents.length + 1) goal []

/-- The main loop of `bfsPathKeys` AS WRITTEN in the source: the goal
test is the hard-coded literal `current.row == 5 && current.col == 8`
(the source comments `5/*exit.r*/` and `8/*exit.c*/` record the intended
located exit). -/
def keyBfsLoop (dungeon : Grid) (startState : KeyState) :
    Nat → List KeyState → List KeyState → KeyParentMap → List Cell
  | 0, _, _, _ => []
  | fuel + 1, q, v, p =>
    match q with
    | [] => []
    | current :: rest =>
      if current.row = 5 && current.col = 8 then
        reconstructKeyPath p startState current
      else
        let (q', v', p') := keyBfsStep dungeon current (rest, v, p)
        keyBfsLoop dungeon startState fuel q' v' p'

/-- Fuel for the key-aware BFS: at most one dequeue per (cell, mask)
state. -/
def keyBfsFuel (dungeon : Grid) : Nat :=
  dungeon.length * (dungeon.headD []).length * 64 + 1

/-- `bfsPathKeys` (solveWithKeys) as written in the source, hard-coded
goal coordinate included. -/
def bfsPathKeys (dungeon : Grid) : List Cell :=
  let start := findPosition dungeon 'S'
  let exitCell := findPosition dungeon 'E'
  if start.r = -1 || exitCell.r = -1 then []
  else
    let startState : KeyState := ⟨start.r, start.c, 0⟩
    keyBfsLoop dungeon startState (keyBfsFuel dungeon)
      [startState] [startState] []

/-- Modelled from the spec: the main loop of the key-aware engine with
the goal test the spec prescribes — the dequeued state's coordinate
equals the *located* exit coordinate, the `KeySet` ignored.  Identical
to `keyBfsLoop` except for the goal test. -/
def keyBfsLoopSpec (dungeon : Grid) (startState : KeyState)
    (exitCell : Cell) :
    Nat → List KeyState → List KeyState → KeyParentMap → List Cell
  | 0, _, _, _ => []
  | fuel + 1, q, v, p =>
    match q with
    | [] => []
    | current :: rest =>
      if current.row = exitCell.r && current.col = exitCell.c then
        reconstructKeyPath p startState current
      else
        let (q', v', p') := keyBfsStep dungeon current (rest, v, p)
        keyBfsLoopSpec dungeon startState exitCell fuel q' v' p'

/-- Modelled from the spec: `solveWithKeys` with the spec-compliant goal
test (§4.4, §9 of the spec); everything else as in `bfsPathKeys`. -/
def bfsPathKeysSpec (dungeon : Grid) : List Cell :=
  let start := findPosition dungeon 'S'
  let exitCell := findPosition dungeon 'E'
  if start.r = -1 || exitCell.r = -1 then []
  else
    let startState : KeyState := ⟨start.r, start.c, 0⟩
    keyBfsLoopSpec dungeon startState exitCell (keyBfsFuel dungeon)
      [startState] [startState] []

/-- Two cells differ by exactly one step up, down, left or right. -/
def adjacentCells (a b : Cell) : Bool :=
  (a.r - b.r).natAbs + (a.c - b.c).natAbs == 1

/-- A door letter as the engines treat doors: `A`..`F` except the exit
letter `E`. -/
def isDoorChar (ch : Char) : Bool :=
  'A'.toNat ≤ ch.toNat && ch.toNat ≤ 'F'.toNat && ch ≠ 'E'

/-- Does the grid contain any door letter? -/
def hasDoorChar (d : Grid) : Bool :=
  d.any fun rowChars => rowChars.any isDoorChar

/-- Modelled from the spec: a candidate walk is traversable under the
key-aware rules (§4.4) when every step is 4-adjacent, lands on an
in-bounds non-wall cell, crosses doors only with the key accumulated so
far, and picks up keys on the way.  This is the comparator the
minimality property quantifies over. -/
def keyWalk (d : Grid) : Nat → Cell → List Cell → Bool
  | _, _, [] => true
  | mask, prev, next :: rest =>
    let ch := charAt d next.r next.c
    adjacentCells prev next && isValidPosition d next.r next.c &&
      (!doorGuard ch || canPassDoor ch mask) &&
      keyWalk d (if keyGuard ch then collectKey ch mask else mask) next rest

/-- Modelled from the spec: a traversable start-to-exit sequence under
the key-aware rules. -/
def keyTraversable (d : Grid) : List Cell → Bool
  | [] => false
  | first :: rest =>
    (first == findPosition d 'S') &&
    ((first :: rest).getLast? == some (findPosition d 'E')) &&
    keyWalk d 0 first rest

/-- The spec's `"SaAE"` fixture: start, key a, door A, exit in one row. -/
def gridSaAE : Grid := ["SaAE".data]

/-- A door-free 1x2 grid with the exit adjacent to the start. -/
def gridSE : Grid := ["SE".data]

/-- A door-free open 6x9 grid whose exit sits next to the start while
the bottom-right cell is the hard-coded goal coordinate (5,8). -/
def gridOpen6x9 : Grid :=
  ["SE.......".data, ".........".data, ".........".data,
   ".........".data, ".........".data, ".........".data]

/-- A 1x2 grid with a start and the key `a`, for exercising successor
generation of the key-aware engine. -/
def gridSa : Grid := [['S', 'a']]

theorem char_eq_of_toNat_eq {a b : Char} (h : a.toNat = b.toNat) : a = b := by
  cases a; cases b
  simp [Char.toNat] at h
  congr 1
  exact UInt32.eq_of_val_eq (Fin.eq_of_val_eq h)

theorem findInRow_eq_none {rowChars : List Char} {target : Char}
    (h : target ∉ rowChars) : findInRow rowChars target = none := by
  induction rowChars with
  | nil => rfl
  | cons ch rest ih =>
    simp only [List.mem_cons, not_or] at h
    rw [findInRow, if_neg (fun hc => h.1 hc.symm), ih h.2]
    rfl

theorem findPositionAux_eq_sentinel {d : Grid} {target : Char}
    (h : ∀ rowChars ∈ d, target ∉ rowChars) :
    ∀ row, findPositionAux d target row = ⟨-1, -1⟩ := by
  induction d with
  | nil => intro row; rfl
  | cons rowChars rest ih =>
    intro row
    rw [findPositionAux, findInRow_eq_none (h rowChars (List.mem_cons_self _ _))]
    exact ih (fun rw hw => h rw (List.mem_cons_of_mem _ hw)) (row + 1)

theorem findPosition_eq_sentinel {d : Grid} {target : Char}
    (h : ∀ rowChars ∈ d, target ∉ rowChars) :
    findPosition d target = ⟨-1, -1⟩ :=
  findPositionAux_eq_sentinel h 0

theorem mask_superset_of_mem_keySuccessors {d : Grid} {s t : KeyState}
    (h : t ∈ keySuccessors d s) : s.keyMask ||| t.keyMask = t.keyMask := by
  rcases List.mem_filterMap.mp h with ⟨dir, _, hsome⟩
  simp only [keyNeighborState] at hsome
  split at hsome
  · simp at hsome
  · split at hsome
    · simp at hsome
    · rw [Option.some.injEq] at hsome
      subst hsome
      dsimp only
      split
      · unfold collectKey
        split
        · exact Nat.or_self _
        · rw [← Nat.lor_assoc, Nat.or_self]
      · exact Nat.or_self _

/-- C9: `collectKey` is idempotent, and on any symbol outside the key
letters `a`..`f` it returns the `KeySet` unchanged. -/
theorem collectKey_idempotent_nonkey_id (key : Char) (keyMask : Nat) :
    collectKey key (collectKey key keyMask) = collectKey key keyMask ∧
    (key.toNat < 'a'.toNat ∨ 'f'.toNat < key.toNat →
      collectKey key keyMask = keyMask) := by
  have ha : 'a'.toNat = 97 := rfl
  have hf : 'f'.toNat = 102 := rfl
  rw [ha, hf]
  by_cases hk : key.toNat < 97 ∨ 102 < key.toNat
  · simp [collectKey, hk]
  · refine ⟨?_, fun h => absurd h hk⟩
    simp [collectKey, hk, Nat.lor_assoc, Nat.or_self]

/-- C9 witness: instantiated at the non-key symbol `#` and mask 3, and
idempotence at key `c` and mask 0. -/
theorem collectKey_idempotent_nonkey_id_witness :
    collectKey 'c' (collectKey 'c' 0) = collectKey 'c' 0 ∧
    collectKey '#' 3 = 3 :=
  ⟨(collectKey_idempotent_nonkey_id 'c' 0).1,
   (collectKey_idempotent_nonkey_id '#' 3).2 (by decide)⟩

/-- C6: `canPassDoor` passes every non-door symbol unconditionally; on a
door letter `A`..`F` it passes exactly when the bit of the matching
lowercase key is set in the `KeySet`; and the edge-check guard of the
key-aware engine never treats `S` or `E` as a door. -/
theorem canPassDoor_spec (ch : Char) (m : Nat) :
    (¬('A'.toNat ≤ ch.toNat ∧ ch.toNat ≤ 'F'.toNat) → canPassDoor ch m = true) ∧
    ('A'.toNat ≤ ch.toNat → ch.toNat ≤ 'F'.toNat →
      (canPassDoor ch m = true ↔ m.testBit (ch.toNat - 'A'.toNat) = true)) ∧
    doorGuard 'S' = false ∧ doorGuard 'E' = false := by
  have hA : 'A'.toNat = 65 := rfl
  have hF : 'F'.toNat = 70 := rfl
  rw [hA, hF]
  refine ⟨?_, ?_, by decide, by decide⟩
  · intro h
    have hk : ch.toNat < 65 ∨ 70 < ch.toNat := by omega
    simp [canPassDoor, hk]
  · intro h1 h2
    have hk : ¬(ch.toNat < 65 ∨ 70 < ch.toNat) := by omega
    simp [canPassDoor, hk, Nat.add_sub_cancel, Nat.testBit,
      Nat.and_one_is_mod, Nat.shiftRight_eq_div_pow, Nat.one_and_eq_mod_two]

/-- C6 witness: a non-door symbol passes with the empty `KeySet`, and
door `B` passes with the mask holding key `b`. -/
theorem canPassDoor_spec_witness :
    canPassDoor '.' 0 = true ∧ canPassDoor 'B' 2 = true := by
  refine ⟨(canPassDoor_spec '.' 0).1 (by decide), ?_⟩
  exact ((canPassDoor_spec 'B' 2).2.1 (by decide) (by decide)).mpr (by decide)

/-- C7: on an in-bounds cell, `isPassable` accepts every symbol except
the wall `#` and the door letters `A`..`F`, with the exit `E` explicitly
carved out of the door range and open; key letters are open. -/
theorem isPassable_spec (d : Grid) (row col : Int)
    (hr0 : 0 ≤ row) (hr : row < numRows d)
    (hc0 : 0 ≤ col) (hc : col < numCols d) :
    (isPassable d row col = true ↔
      (charAt d row col ≠ '#' ∧
        (¬('A'.toNat ≤ (charAt d row col).toNat ∧
            (charAt d row col).toNat ≤ 'F'.toNat) ∨
          charAt d row col = 'E'))) ∧
    (charAt d row col = 'E' → isPassable d row col = true) ∧
    (keyGuard (charAt d row col) = true → isPassable d row col = true) := by
  have hb : ¬(row < 0 ∨ row ≥ numRows d ∨ col < 0 ∨ col ≥ numCols d) := by
    omega
  have hmain : isPassable d row col = true ↔
      (charAt d row col ≠ '#' ∧
        (¬('A'.toNat ≤ (charAt d row col).toNat ∧
            (charAt d row col).toNat ≤ 'F'.toNat) ∨
          charAt d row col = 'E')) := by
    simp only [isPassable]
    split_ifs with h1 h2 h3
    · simp at h1
      omega
    · simp only [Bool.false_eq_true, false_iff]
      simp at h2
      intro hcon
      exact hcon.1 h2
    · simp only [Bool.false_eq_true, false_iff]
      simp at h3
      intro hcon
      rcases hcon.2 with hnd | hE
      · exact hnd h3.1
      · exact h3.2 hE
    · simp only [true_iff]
      simp at h2 h3
      refine ⟨h2, ?_⟩
      by_cases hA : 'A'.toNat ≤ (charAt d row col).toNat ∧
          (charAt d row col).toNat ≤ 'F'.toNat
      · exact Or.inr (h3 hA.1 hA.2)
      · exact Or.inl hA
  refine ⟨hmain, ?_, ?_⟩
  · intro hE
    rw [hmain, hE]
    exact ⟨by decide, Or.inr rfl⟩
  · intro hkey
    simp only [keyGuard, Bool.and_eq_true, decide_eq_true_eq] at hkey
    rw [hmain]
    constructor
    · intro hsharp
      rw [hsharp] at hkey
      revert hkey
      decide
    · left
      intro hdoor
      have h97 : 'a'.toNat = 97 := rfl
      have h102 : 'f'.toNat = 102 := rfl
      have h65 : 'A'.toNat = 65 := rfl
      have h70 : 'F'.toNat = 70 := rfl
      rw [h97, h102] at hkey
      rw [h65, h70] at hdoor
      omega

/-- C7 witness: the exit cell of the `"SaAE"` fixture is passable, as is
its key cell, while its door cell is not. -/
theorem isPassable_spec_witness :
    isPassable gridSaAE 0 3 = true ∧
    isPassable gridSaAE 0 1 = true ∧
    isPassable gridSaAE 0 2 = false := by
  refine ⟨?_, ?_, by decide⟩
  · exact ((isPassable_spec gridSaAE 0 3 (by decide) (by decide) (by decide)
      (by decide)).2.1) (by decide)
  · exact ((isPassable_spec gridSaAE 0 1 (by decide) (by decide) (by decide)
      (by decide)).2.2) (by decide)

/-- C8: a grid missing `S` or missing `E` makes `findPosition` return
the sentinel `(-1,-1)`, and both engines detect it and return the empty
sequence as a normal result. -/
theorem missing_start_or_exit_empty (d : Grid)
    (h : (∀ rowChars ∈ d, 'S' ∉ rowChars) ∨ (∀ rowChars ∈ d, 'E' ∉ rowChars)) :
    (findPosition d 'S' = ⟨-1, -1⟩ ∨ findPosition d 'E' = ⟨-1, -1⟩) ∧
    bfsPath d = [] ∧ bfsPathKeys d = [] := by
  rcases h with h | h
  · have hs := findPosition_eq_sentinel h
    exact ⟨Or.inl hs, by simp [bfsPath, hs], by simp [bfsPathKeys, hs]⟩
  · have he := findPosition_eq_sentinel h
    exact ⟨Or.inr he, by simp [bfsPath, he], by simp [bfsPathKeys, he]⟩

/-- C8 witness: a grid with an exit but no start. -/
theorem missing_start_or_exit_empty_witness :
    bfsPath [['E', '.']] = [] ∧ bfsPathKeys [['E', '.']] = [] := by
  have h := missing_start_or_exit_empty [['E', '.']] (Or.inl (by decide))
  exact ⟨h.2.1, h.2.2⟩

/-- C10: along every transition of the key-aware search the `KeySet`
only grows — every successor's mask is a bitwise superset of the
dequeued state's mask — and hence along any chain of transitions a set
bit is never lost. -/
theorem keyMask_monotone (d : Grid) (s t : KeyState) :
    (t ∈ keySuccessors d s → s.keyMask ||| t.keyMask = t.keyMask) ∧
    (Relation.ReflTransGen (fun a b => b ∈ keySuccessors d a) s t →
      ∀ i, s.keyMask.testBit i = true → t.keyMask.testBit i = true) := by
  refine ⟨mask_superset_of_mem_keySuccessors, ?_⟩
  intro hreach
  induction hreach with
  | refl => exact fun i hbit => hbit
  | tail _ hbc ih =>
    intro i hbit
    have hsup := mask_superset_of_mem_keySuccessors hbc
    rw [← hsup, Nat.testBit_lor, ih i hbit]
    rfl

/-- C10 witness: in the `gridSa` fixture, stepping from the start cell
holding key `a` onto the key cell keeps bit 0 set. -/
theorem keyMask_monotone_witness :
    (⟨0, 0, 1⟩ : KeyState).keyMask ||| (⟨0, 1, 1⟩ : KeyState).keyMask
      = (⟨0, 1, 1⟩ : KeyState).keyMask ∧
    (⟨0, 1, 1⟩ : KeyState).keyMask.testBit 0 = true := by
  have h := keyMask_monotone gridSa ⟨0, 0, 1⟩ ⟨0, 1, 1⟩
  have hmem : (⟨0, 1, 1⟩ : KeyState) ∈ keySuccessors gridSa ⟨0, 0, 1⟩ := by
    have hval : keySuccessors gridSa ⟨0, 0, 1⟩ = [⟨0, 1, 1⟩] := by decide
    rw [hval]
    exact List.mem_singleton.mpr rfl
  exact ⟨h.1 hmem, h.2 (Relation.ReflTransGen.single hmem) 0 (by decide)⟩

/-- C1: the goal test of `bfsPathKeys` is NOT the located exit: on the
`"SaAE"` fixture the located exit is (0,3), a state at that coordinate
is reached (the spec-modelled engine succeeds with the full path), yet
the engine as written never declares success because its goal test is
the hard-coded literal (5,8). -/
theorem bfsPathKeys_goal_hardcoded :
    bfsPathKeys gridSaAE = [] ∧
    findPosition gridSaAE 'E' = ⟨0, 3⟩ ∧
    bfsPathKeysSpec gridSaAE = [⟨0, 0⟩, ⟨0, 1⟩, ⟨0, 2⟩, ⟨0, 3⟩] := by
  decide

/-- C2: on the `"SaAE"` fixture, `bfsPath` returns the empty sequence
(the door blocks) as claimed, but `bfsPathKeys` as written also returns
the empty sequence instead of the claimed 4-coordinate path; the
spec-modelled goal test yields exactly that path. -/
theorem solve_SaAE_eval :
    bfsPath gridSaAE = [] ∧
    bfsPathKeys gridSaAE = [] ∧
    bfsPathKeysSpec gridSaAE = [⟨0, 0⟩, ⟨0, 1⟩, ⟨0, 2⟩, ⟨0, 3⟩] := by
  decide

/-- C3: the door-free grid `"SE"` has a reachable exit, `bfsPath`
returns the 2-cell path, yet `bfsPathKeys` returns the empty sequence —
the path lengths differ because the hard-coded goal (5,8) lies outside
the grid. -/
theorem doorFree_lengths_differ :
    hasDoorChar gridSE = false ∧
    bfsPath gridSE = [⟨0, 0⟩, ⟨0, 1⟩] ∧
    bfsPathKeys gridSE = [] ∧
    (bfsPath gridSE).length ≠ (bfsPathKeys gridSE).length := by
  decide

/-- C4: on the open 6x9 grid whose exit is at (0,1), `bfsPathKeys`
returns a non-empty path that starts at the start cell but ends at the
hard-coded cell (5,8), not at the located exit. -/
theorem keyPath_endpoint_mismatch :
    bfsPathKeys gridOpen6x9 ≠ [] ∧
    (bfsPathKeys gridOpen6x9).head? = some (findPosition gridOpen6x9 'S') ∧
    (bfsPathKeys gridOpen6x9).getLast? = some ⟨5, 8⟩ ∧
    findPosition gridOpen6x9 'E' = ⟨0, 1⟩ ∧
    (⟨5, 8⟩ : Cell) ≠ (⟨0, 1⟩ : Cell) := by
  decide

/-- C5: on the open 6x9 grid, the non-empty path returned by
`bfsPathKeys` has 13 edges, while a traversable start-to-exit sequence
with a single edge exists — the returned path is not minimal. -/
theorem keyPath_not_minimal :
    bfsPathKeys gridOpen6x9 ≠ [] ∧
    (bfsPathKeys gridOpen6x9).length - 1 = 13 ∧
    keyTraversable gridOpen6x9 [⟨0, 0⟩, ⟨0, 1⟩] = true ∧
    ([(⟨0, 0⟩ : Cell), ⟨0, 1⟩].length - 1 < (bfsPathKeys gridOpen6x9).length - 1) := by
  decide

end Solver
